import Mathlib

/-!
Shallow embedding of `addressbook.py` (a contact-management program built on
Python's `datetime`, `re` and `pickle`) together with proofs about its
specification claims.

Conventions of the embedding:
* Python `datetime.date` values become the `Date` structure below; the
  calendar arithmetic (`daysInMonth`, `toOrdinal`, leap years) mirrors the
  proleptic Gregorian calendar used by CPython's `datetime` module
  (`_is_leap`, `_DAYS_BEFORE_MONTH`, `_days_before_year`, `toordinal`).
* Python exceptions become `Except String` results carrying the exception
  text; `None` becomes `Option.none`.
* Mutation of records and of the book (Python objects are aliased: a record
  inserted into the book and then mutated is mutated inside the book) is
  modelled by explicitly storing the updated record back under its key.
-/

/-! ## Calendar arithmetic (model of CPython `datetime.date`) -/

/-- A calendar date, as stored by `datetime.date` (year, month, day). -/
structure Date where
  year : Nat
  month : Nat
  day : Nat
deriving DecidableEq, Repr

/-- CPython `datetime._is_leap`: divisible by 4 and (not by 100 or by 400). -/
def isLeapYear (y : Nat) : Bool :=
  y % 4 == 0 && (y % 100 != 0 || y % 400 == 0)

/-- Number of days of a month (CPython `datetime._days_in_month`). -/
def daysInMonth (y m : Nat) : Nat :=
  if m = 2 then (if isLeapYear y then 29 else 28)
  else if m = 4 ∨ m = 6 ∨ m = 9 ∨ m = 11 then 30
  else 31

/-- CPython `datetime._DAYS_BEFORE_MONTH` table (non-leap cumulative days). -/
def daysBeforeMonthTable (m : Nat) : Nat :=
  match m with
  | 1 => 0 | 2 => 31 | 3 => 59 | 4 => 90 | 5 => 120 | 6 => 151
  | 7 => 181 | 8 => 212 | 9 => 243 | 10 => 273 | 11 => 304 | 12 => 334
  | _ => 0

/-- CPython `datetime._days_before_month`: table value plus leap correction. -/
def daysBeforeMonth (y m : Nat) : Nat :=
  daysBeforeMonthTable m + (if 2 < m ∧ isLeapYear y then 1 else 0)

/-- Length of a year in days. -/
def daysInYear (y : Nat) : Nat := if isLeapYear y then 366 else 365

/-- CPython `datetime._days_before_year`: days before January 1 of `y`. -/
def daysBeforeYear (y : Nat) : Nat :=
  (y - 1) * 365 + (y - 1) / 4 - (y - 1) / 100 + (y - 1) / 400

/-- CPython `date.toordinal`: January 1 of year 1 is day 1. -/
def toOrdinal (d : Date) : Nat :=
  daysBeforeYear d.year + daysBeforeMonth d.year d.month + d.day

/-- Day-of-year position of a month/day pair inside year `y`. -/
def dayOfYear (y m d : Nat) : Nat := daysBeforeMonth y m + d

/-- The dates `datetime.date` can actually represent
(`MINYEAR = 1`, `MAXYEAR = 9999`, valid month, valid day of month). -/
def ValidDate (d : Date) : Prop :=
  1 ≤ d.year ∧ d.year ≤ 9999 ∧ 1 ≤ d.month ∧ d.month ≤ 12 ∧
    1 ≤ d.day ∧ d.day ≤ daysInMonth d.year d.month

instance (d : Date) : Decidable (ValidDate d) := by
  unfold ValidDate; infer_instance

/-- Python `date` comparison (`<`), lexicographic on (year, month, day). -/
def dateLt (a b : Date) : Bool :=
  a.year < b.year ||
    (a.year == b.year &&
      (a.month < b.month || (a.month == b.month && a.day < b.day)))

/-- `d.replace(year = y)`: rebuilds the date through the `date` constructor,
which raises `ValueError` when the new combination is invalid (notably
February 29 mapped into a non-leap year, or a year outside 1..9999). -/
def replaceYear (d : Date) (y : Nat) : Except String Date :=
  if ¬ (1 ≤ y ∧ y ≤ 9999) then .error "year is out of range"
  else if ¬ (1 ≤ d.month ∧ d.month ≤ 12) then .error "month must be in 1..12"
  else if ¬ (1 ≤ d.day ∧ d.day ≤ daysInMonth y d.month) then
    .error "day is out of range for month"
  else .ok ⟨y, d.month, d.day⟩

/-- Successor date (one day later), with month and year rollover. -/
def nextDay (d : Date) : Date :=
  if d.day < daysInMonth d.year d.month then ⟨d.year, d.month, d.day + 1⟩
  else if d.month < 12 then ⟨d.year, d.month + 1, 1⟩
  else ⟨d.year + 1, 1, 1⟩

/-- `d + timedelta(days = n)`, modelled as `n`-fold day successor. -/
def addDays (d : Date) : Nat → Date
  | 0 => d
  | n + 1 => nextDay (addDays d n)

/-! ## Rendering (`strftime("%d.%m.%Y")` on Linux/glibc) -/

/-- Two-digit zero-padded rendering used by `%d` and `%m`; day and month of a
valid date are at most 31, so two digits always suffice. -/
def pad2chars (n : Nat) : List Char :=
  [Char.ofNat (48 + n / 10 % 10), Char.ofNat (48 + n % 10)]

/-- `%Y` on glibc renders the year as a plain unpadded decimal number.  For
years of exactly four digits the decimal digits are written out directly;
smaller years fall back to `Nat.repr` (the same unpadded decimal). -/
def yearChars (y : Nat) : List Char :=
  if 1000 ≤ y ∧ y ≤ 9999 then
    [Char.ofNat (48 + y / 1000), Char.ofNat (48 + y / 100 % 10),
     Char.ofNat (48 + y / 10 % 10), Char.ofNat (48 + y % 10)]
  else (Nat.repr y).data

/-- `date.strftime("%d.%m.%Y")`, the rendering used by `Birthday.__str__`
and for `congratulation_date`. -/
def formatDate (d : Date) : String :=
  String.mk (pad2chars d.day ++ '.' :: pad2chars d.month ++ '.' :: yearChars d.year)

/-! ## Unicode decimal digits (`\d` in a Python 3 `str` regex)

In a Python 3 `str` pattern, `\d` matches every Unicode decimal digit
(category Nd), not only `0`-`9`.  The ranges below are the Nd category of
the Unicode character database; every range is a run of consecutive digits
starting at that run's zero character, so the digit value of a character is
its offset inside its run modulo 10 (the 120782..120831 range is five
consecutive 0-9 runs of mathematical digits). -/

/-- Unicode category Nd as codepoint ranges (inclusive). -/
def ndRanges : List (Nat × Nat) :=
  [(48, 57), (1632, 1641), (1776, 1785), (1984, 1993), (2406, 2415),
   (2534, 2543), (2662, 2671), (2790, 2799), (2918, 2927), (3046, 3055),
   (3174, 3183), (3302, 3311), (3430, 3439), (3558, 3567), (3664, 3673),
   (3792, 3801), (3872, 3881), (4160, 4169), (4240, 4249), (6112, 6121),
   (6160, 6169), (6470, 6479), (6608, 6617), (6784, 6793), (6800, 6809),
   (6992, 7001), (7088, 7097), (7232, 7241), (7248, 7257), (42528, 42537),
   (43216, 43225), (43264, 43273), (43472, 43481), (43504, 43513),
   (43600, 43609), (44016, 44025), (65296, 65305), (66720, 66729),
   (68912, 68921), (69734, 69743), (69872, 69881), (69942, 69951),
   (70096, 70105), (70384, 70393), (70736, 70745), (70864, 70873),
   (71248, 71257), (71360, 71369), (71472, 71481), (71904, 71913),
   (72016, 72025), (72784, 72793), (73040, 73049), (73120, 73129),
   (92768, 92777), (92864, 92873), (93008, 93017), (120782, 120831),
   (123200, 123209), (123632, 123641), (125264, 125273), (130032, 130041)]

/-- What `\d` matches in a Python 3 `str` regex: any Unicode decimal digit. -/
def isPyDigit (c : Char) : Bool :=
  ndRanges.any fun r => r.1 ≤ c.toNat && c.toNat ≤ r.2

/-- ASCII decimal digit test (the literal classes of the strptime regex,
such as `[1-9]`, match ASCII only). -/
def isAsciiDigit (c : Char) : Bool := 48 ≤ c.toNat && c.toNat ≤ 57

/-- Decimal value of a Unicode digit: its offset inside its Nd run. -/
def pyDigitVal (c : Char) : Nat :=
  match ndRanges.find? (fun r => r.1 ≤ c.toNat && c.toNat ≤ r.2) with
  | some r => (c.toNat - r.1) % 10
  | none => 0

/-- Python `int()` on a string of (possibly Unicode) decimal digits. -/
def intOfDigits (l : List Char) : Nat :=
  l.foldl (fun a c => 10 * a + pyDigitVal c) 0

/-! ## Birthday parsing (`datetime.strptime(value, "%d.%m.%Y")`)

CPython's `_strptime` compiles the format into the anchored regex
`(3[01]|[12]\d|0[1-9]|[1-9])\.(1[0-2]|0[1-9]|[1-9])\.(\d\d\d\d)`, rejects
unconverted trailing data, converts each captured token with `int()` (which
also accepts Unicode digits), then builds `datetime(year, month, day)`,
which raises `ValueError` for impossible calendar dates.  The literal
characters and character classes of the regex (`3`, `[01]`, `[12]`, `0`,
`[1-9]`, `1`, `[0-2]`) match ASCII only, while each `\d` matches any
Unicode decimal digit.  Because no digit is the separator `.`, matching
this regex is equivalent to splitting the string at the dots and checking
each token against its alternation, which is how the parser below is
written. -/

/-- Split a character list at every `'.'` (like `str.split('.')`). -/
def splitDots : List Char → List (List Char)
  | [] => [[]]
  | c :: cs =>
    match splitDots cs with
    | [] => [[]]
    | t :: ts => if c = '.' then [] :: t :: ts else (c :: t) :: ts

/-- Day token of the strptime regex, one alternative per line:
`3[01]` | `[12]\d` | `0[1-9]` | `[1-9]` — only the `\d` is Unicode. -/
def validDayTok (t : List Char) : Bool :=
  match t with
  | [c] => 49 ≤ c.toNat && c.toNat ≤ 57
  | [c1, c2] =>
    (c1 = '3' && (c2 = '0' || c2 = '1')) ||
      ((c1 = '1' || c1 = '2') && isPyDigit c2) ||
      (c1 = '0' && (49 ≤ c2.toNat && c2.toNat ≤ 57))
  | _ => false

/-- Month token of the strptime regex: `1[0-2]` | `0[1-9]` | `[1-9]` —
all classes are ASCII literals, no `\d`. -/
def validMonthTok (t : List Char) : Bool :=
  match t with
  | [c] => 49 ≤ c.toNat && c.toNat ≤ 57
  | [c1, c2] =>
    (c1 = '1' && (48 ≤ c2.toNat && c2.toNat ≤ 50)) ||
      (c1 = '0' && (49 ≤ c2.toNat && c2.toNat ≤ 57))
  | _ => false

/-- Year token of the strptime regex: `\d\d\d\d`, four Unicode digits. -/
def validYearTok (t : List Char) : Bool :=
  match t with
  | [c1, c2, c3, c4] =>
    isPyDigit c1 && isPyDigit c2 && isPyDigit c3 && isPyDigit c4
  | _ => false

/-- The `Birthday` field constructor: parses `DD.MM.YYYY` via
`datetime.strptime` and stores the resulting `date`; every failure
(`ValueError` from the regex mismatch or from the `datetime` constructor)
is re-raised as `ValueError("Invalid date format. Use DD.MM.YYYY")`.  The
token classes already force `1 ≤ day ≤ 31` and `1 ≤ month ≤ 12`; the
`datetime` constructor additionally requires `year ≥ 1` (the four-digit
token caps it at 9999) and the day to exist in the month. -/
def Birthday (value : String) : Except String Date :=
  match splitDots value.data with
  | [dt, mt, yt] =>
    if validDayTok dt && validMonthTok mt && validYearTok yt then
      if 1 ≤ intOfDigits yt ∧
          intOfDigits dt ≤ daysInMonth (intOfDigits yt) (intOfDigits mt) then
        .ok ⟨intOfDigits yt, intOfDigits mt, intOfDigits dt⟩
      else .error "Invalid date format. Use DD.MM.YYYY"
    else .error "Invalid date format. Use DD.MM.YYYY"
  | _ => .error "Invalid date format. Use DD.MM.YYYY"

/-- The `Phone` field constructor: accepts the string iff
`re.fullmatch(r'\d{10}', value)` succeeds (exactly ten characters, each a
Unicode decimal digit) and stores the string unchanged; otherwise raises
`ValueError("Phone number must contain exactly 10 digits.")`. -/
def Phone (value : String) : Except String String :=
  if value.data.length = 10 ∧ value.data.all isPyDigit then .ok value
  else .error "Phone number must contain exactly 10 digits."

/-! ## Records and the address book -/

/-- A `Record`: contact name (the `Name` field's string), the list of phone
strings held by its `Phone` objects (in list order), and the optional
`Birthday` date. -/
structure Record where
  name : String
  phones : List String
  birthday : Option Date
deriving DecidableEq, Repr

/-- `Record(name)`: fresh record with no phones and no birthday. -/
def Record.new (name : String) : Record := ⟨name, [], none⟩

/-- `Record.add_phone`: validates through the `Phone` constructor and appends
on success; the `ValueError` propagates on failure. -/
def Record.add_phone (r : Record) (phone_number : String) : Except String Record :=
  (Phone phone_number).map fun v => { r with phones := r.phones ++ [v] }

/-- Remove the first occurrence of `p`; `none` when `p` does not occur. -/
def removeFirst (p : String) : List String → Option (List String)
  | [] => none
  | x :: xs => if x = p then some xs else (removeFirst p xs).map (x :: ·)

/-- Replace the first occurrence of `old` by `new`; `none` when absent. -/
def replaceFirst (old new : String) : List String → Option (List String)
  | [] => none
  | x :: xs =>
    if x = old then some (new :: xs)
    else (replaceFirst old new xs).map (x :: ·)

/-- `Record.remove_phone`: drops the first phone whose value equals
`phone_number` and reports which case happened via the returned string. -/
def Record.remove_phone (r : Record) (phone_number : String) : String × Record :=
  match removeFirst phone_number r.phones with
  | some ps => ("Phone " ++ phone_number ++ " removed.", { r with phones := ps })
  | none => ("Phone " ++ phone_number ++ " not found.", r)

/-- `Record.edit_phone`: overwrites the value of the first phone equal to
`old_phone` with `new_phone` (no re-validation of `new_phone`). -/
def Record.edit_phone (r : Record) (old_phone new_phone : String) : String × Record :=
  match replaceFirst old_phone new_phone r.phones with
  | some ps =>
    ("Phone " ++ old_phone ++ " changed to " ++ new_phone ++ ".", { r with phones := ps })
  | none => ("Phone " ++ old_phone ++ " not found.", r)

/-- `Record.add_birthday`: `self.birthday = Birthday(birthday_date)`; when the
constructor raises, the assignment never happens and the error propagates. -/
def Record.add_birthday (r : Record) (birthday_date : String) : Except String Record :=
  (Birthday birthday_date).map fun d => { r with birthday := some d }

/-- `Record.days_to_birthday`, with today's date passed explicitly:
`None` without a birthday; otherwise `replace` the birthday's year with
today's year (which can raise for Feb 29), move to next year when the
result is before today, and return the signed day difference. -/
def Record.days_to_birthday (r : Record) (today : Date) : Except String (Option Int) :=
  match r.birthday with
  | none => .ok none
  | some b =>
    match replaceYear b today.year with
    | .error e => .error e
    | .ok nb =>
      if dateLt nb today then
        match replaceYear b (today.year + 1) with
        | .error e => .error e
        | .ok nb2 => .ok (some ((toOrdinal nb2 : Int) - (toOrdinal today : Int)))
      else .ok (some ((toOrdinal nb : Int) - (toOrdinal today : Int)))

/-- The `AddressBook`'s `UserDict` data: an insertion-ordered association
list with unique keys, exactly like a Python `dict`. -/
structure AddressBook where
  data : List (String × Record)
deriving DecidableEq, Repr

/-- `self.data[key] = record` on a Python dict: overwrite in place when the
key exists (keeping its position), otherwise append at the end. -/
def storeEntry (key : String) (r : Record) : List (String × Record) → List (String × Record)
  | [] => [(key, r)]
  | (k, v) :: rest =>
    if k = key then (k, r) :: rest else (k, v) :: storeEntry key r rest

/-- Ordered dict lookup. -/
def lookupEntry (key : String) : List (String × Record) → Option Record
  | [] => none
  | (k, v) :: rest => if k = key then some v else lookupEntry key rest

/-- `AddressBook.find` returns either the record or the sentinel string
`"Contact not found."`; `notFound` models that sentinel (a Python `str`,
never equal to any `Record`). -/
inductive FindResult where
  | found (r : Record)
  | notFound
deriving DecidableEq, Repr

/-- `AddressBook.add_record`: keyed by `record.name.value`. -/
def AddressBook.add_record (book : AddressBook) (r : Record) : String × AddressBook :=
  ("Record for " ++ r.name ++ " added.", ⟨storeEntry r.name r book.data⟩)

/-- `AddressBook.find`: `self.data.get(name, "Contact not found.")`. -/
def AddressBook.find (book : AddressBook) (name : String) : FindResult :=
  match lookupEntry name book.data with
  | some r => .found r
  | none => .notFound

/-- Entry of `get_upcoming_birthdays`: the dict with keys `name`,
`birthday` (the `Birthday` object's date) and `congratulation_date`. -/
structure UpcomingEntry where
  name : String
  birthday : Date
  congratulation_date : String
deriving DecidableEq, Repr

/-- Body of `AddressBook.get_upcoming_birthdays` over the record list: for
each record with a birthday compute `days_to_birthday` (whose `ValueError`
aborts the whole call), keep it when the result is in `[0, 7]`, and render
`today + timedelta(days=k)` with `%d.%m.%Y`. -/
def upcomingAux (today : Date) : List (String × Record) → Except String (List UpcomingEntry)
  | [] => .ok []
  | (_, r) :: rest =>
    match r.birthday with
    | none => upcomingAux today rest
    | some b =>
      match r.days_to_birthday today with
      | .error e => .error e
      | .ok none => upcomingAux today rest
      | .ok (some k) =>
        if 0 ≤ k ∧ k ≤ 7 then
          (upcomingAux today rest).map
            (⟨r.name, b, formatDate (addDays today k.toNat)⟩ :: ·)
        else upcomingAux today rest

/-- `AddressBook.get_upcoming_birthdays`, with today's date explicit. -/
def AddressBook.get_upcoming_birthdays (book : AddressBook) (today : Date) :
    Except String (List UpcomingEntry) :=
  upcomingAux today book.data

/-! ## Command-layer entry points (decorated with `@input_error`, so any
exception becomes its message string; they return the display string and,
since the Python versions mutate the book in place, the updated book). -/

/-- `add_contact(args, book)`. -/
def add_contact (args : List String) (book : AddressBook) : String × AddressBook :=
  match args with
  | name :: phone :: _ =>
    match book.find name with
    | .notFound =>
      let r := Record.new name
      let book1 := (book.add_record r).2
      if phone = "" then ("Contact added.", book1)
      else
        match r.add_phone phone with
        | .ok r2 => ("Contact added.", ⟨storeEntry name r2 book1.data⟩)
        | .error e => (e, book1)
    | .found r =>
      if phone = "" then ("Contact updated.", book)
      else
        match r.add_phone phone with
        | .ok r2 => ("Contact updated.", ⟨storeEntry name r2 book.data⟩)
        | .error e => (e, book)
  | _ => ("Please provide both name and phone number.", book)

/-- `add_birthday(args, book)` (the command handler, distinct from
`Record.add_birthday`). -/
def add_birthday (args : List String) (book : AddressBook) : String × AddressBook :=
  match args with
  | name :: birthday :: _ =>
    match book.find name with
    | .notFound => ("Contact not found.", book)
    | .found r =>
      match r.add_birthday birthday with
      | .error e => (e, book)
      | .ok r2 =>
        if r.birthday.isSome then
          ("Birthday for " ++ name ++ " updated.", ⟨storeEntry name r2 book.data⟩)
        else
          ("Birthday for " ++ name ++ " added.", ⟨storeEntry name r2 book.data⟩)
  | _ => ("Please provide both name and birthday date in the format DD.MM.YYYY.", book)

/-! ## Persistence (`save_data` / `load_data`)

Modelled from the spec: `pickle.dump` / `pickle.load` are standard-library
code that is not part of this repository; per the spec the persisted file
"must preserve every field exactly (round-trip fidelity, including date
values as dates, not strings)".  Pickle serialises the whole object graph,
so it is modelled as a concrete flat token stream: every record is written
as its key, name, length-prefixed phone list and optional date (as three
numbers), and `load_data` parses that stream back. -/

/-- One token of the serialised stream. -/
inductive PickleToken where
  | tNat (n : Nat)
  | tStr (s : String)
  | tBool (b : Bool)
deriving DecidableEq, Repr

/-- Serialise one dict entry. -/
def encodeEntry (e : String × Record) : List PickleToken :=
  .tStr e.1 :: .tStr e.2.name :: .tNat e.2.phones.length ::
    e.2.phones.map .tStr ++
      (match e.2.birthday with
       | none => [.tBool false]
       | some d => [.tBool true, .tNat d.year, .tNat d.month, .tNat d.day])

/-- Serialise the whole book. -/
def encodeBook (book : AddressBook) : List PickleToken :=
  .tNat book.data.length :: (book.data.map encodeEntry).flatten

/-- Parse `n` phone strings, returning them with the remaining stream. -/
def decodePhones : Nat → List PickleToken → Option (List String × List PickleToken)
  | 0, ts => some ([], ts)
  | n + 1, .tStr s :: ts =>
    (decodePhones n ts).map fun p => (s :: p.1, p.2)
  | _ + 1, _ => none

/-- Parse the optional birthday. -/
def decodeBirthday : List PickleToken → Option (Option Date × List PickleToken)
  | .tBool false :: ts => some (none, ts)
  | .tBool true :: .tNat y :: .tNat m :: .tNat d :: ts => some (some ⟨y, m, d⟩, ts)
  | _ => none

/-- Parse one dict entry. -/
def decodeEntry : List PickleToken → Option ((String × Record) × List PickleToken)
  | .tStr key :: .tStr nm :: .tNat n :: ts =>
    match decodePhones n ts with
    | none => none
    | some (ps, ts1) =>
      match decodeBirthday ts1 with
      | none => none
      | some (bd, ts2) => some ((key, ⟨nm, ps, bd⟩), ts2)
  | _ => none

/-- Parse `n` dict entries. -/
def decodeEntries : Nat → List PickleToken → Option (List (String × Record) × List PickleToken)
  | 0, ts => some ([], ts)
  | n + 1, ts =>
    match decodeEntry ts with
    | none => none
    | some (e, ts1) =>
      match decodeEntries n ts1 with
      | none => none
      | some (es, ts2) => some (e :: es, ts2)

/-- Parse a serialised book (`pickle.load` reads one object and ignores
anything after it). -/
def decodeBook (ts : List PickleToken) : Option AddressBook :=
  match ts with
  | .tNat n :: rest =>
    match decodeEntries n rest with
    | none => none
    | some (es, _) => some ⟨es⟩
  | _ => none

/-- `save_data(book, filename)`: the content written to the file. -/
def save_data (book : AddressBook) : List PickleToken := encodeBook book

/-- `load_data(filename)`: `none` stands for a missing file
(`FileNotFoundError` → fresh empty book); on a present file the stream is
unpickled, any decoding failure surfacing as an error. -/
def load_data (file : Option (List PickleToken)) : Except String AddressBook :=
  match file with
  | none => .ok ⟨[]⟩
  | some ts =>
    match decodeBook ts with
    | some b => .ok b
    | none => .error "unpickling error"

/-- Spec-side description (from the claim's words) of the upcoming-birthday
query: exactly the records whose `days_to_birthday` is in `[0, 7]`, in book
iteration order, with the congratulation date rendered from
`today + that many days`. -/
def upcomingSpec (book : AddressBook) (today : Date) : List UpcomingEntry :=
  book.data.filterMap fun p =>
    match p.2.birthday, p.2.days_to_birthday today with
    | some b, .ok (some k) =>
      if 0 ≤ k ∧ k ≤ 7 then
        some ⟨p.2.name, b, formatDate (addDays today k.toNat)⟩
      else none
    | _, _ => none

/-! ## Shared lemmas -/

theorem decodePhones_encode (ps : List String) (rest : List PickleToken) :
    decodePhones ps.length (ps.map .tStr ++ rest) = some (ps, rest) := by
  induction ps with
  | nil => rfl
  | cons p ps ih => simp [decodePhones, ih]

theorem decodeEntry_encode (e : String × Record) (rest : List PickleToken) :
    decodeEntry (encodeEntry e ++ rest) = some (e, rest) := by
  obtain ⟨key, nm, ps, bd⟩ := e
  cases bd <;>
    simp [encodeEntry, decodeEntry, List.append_assoc, decodePhones_encode,
      decodeBirthday]

theorem decodeEntries_encode (es : List (String × Record)) (rest : List PickleToken) :
    decodeEntries es.length ((es.map encodeEntry).flatten ++ rest) = some (es, rest) := by
  induction es with
  | nil => rfl
  | cons e es ih =>
    simp [decodeEntries, List.append_assoc, decodeEntry_encode, ih]

theorem lookupEntry_storeEntry_self (key : String) (r : Record)
    (l : List (String × Record)) :
    lookupEntry key (storeEntry key r l) = some r := by
  induction l with
  | nil => simp [storeEntry, lookupEntry]
  | cons e l ih =>
    by_cases h : e.1 = key
    · simp [storeEntry, lookupEntry, h]
    · obtain ⟨k, v⟩ := e
      simp only at h
      simp [storeEntry, lookupEntry, h, ih]

theorem lookupEntry_absent (key : String) (l : List (String × Record))
    (h : ∀ e ∈ l, e.1 ≠ key) : lookupEntry key l = none := by
  induction l with
  | nil => rfl
  | cons e l ih =>
    have h1 := h e (by simp)
    obtain ⟨k, v⟩ := e
    simp only at h1
    simp [lookupEntry, h1]
    exact ih fun e he => h e (by simp [he])

theorem removeFirst_of_not_mem (p : String) (l : List String) (h : p ∉ l) :
    removeFirst p l = none := by
  induction l with
  | nil => rfl
  | cons x xs ih =>
    have hx : x ≠ p := fun he => h (by simp [he])
    simp [removeFirst, hx, ih fun hm => h (by simp [hm])]

theorem removeFirst_split (p : String) (pre post : List String) (h : p ∉ pre) :
    removeFirst p (pre ++ p :: post) = some (pre ++ post) := by
  induction pre with
  | nil => simp [removeFirst]
  | cons x xs ih =>
    have hx : x ≠ p := fun he => h (by simp [he])
    simp [removeFirst, hx, ih fun hm => h (by simp [hm])]

theorem replaceFirst_of_not_mem (old new : String) (l : List String) (h : old ∉ l) :
    replaceFirst old new l = none := by
  induction l with
  | nil => rfl
  | cons x xs ih =>
    have hx : x ≠ old := fun he => h (by simp [he])
    simp [replaceFirst, hx, ih fun hm => h (by simp [hm])]

theorem replaceFirst_split (old new : String) (pre post : List String) (h : old ∉ pre) :
    replaceFirst old new (pre ++ old :: post) = some (pre ++ new :: post) := by
  induction pre with
  | nil => simp [replaceFirst]
  | cons x xs ih =>
    have hx : x ≠ old := fun he => h (by simp [he])
    simp [replaceFirst, hx, ih fun hm => h (by simp [hm])]

/-! ## Claim theorems -/

/-- C1: round-trip persistence: saving an address book and loading it back
returns a book with exactly the same named records — same names, same phone
lists in the same order, and the same birthday stored as a date value. -/
theorem save_load_roundtrip (book : AddressBook) :
    load_data (some (save_data book)) = .ok book := by
  have h := decodeEntries_encode book.data []
  simp only [List.append_nil] at h
  simp [load_data, save_data, encodeBook, decodeBook, h]

/-- C6: `find` on an absent name returns the `"Contact not found."` sentinel
(and, being total, never raises), and immediately after `add_record r` a
`find` on `r`'s name returns `r` itself. -/
theorem find_sentinel_and_add_record (book : AddressBook) (name : String) (r : Record)
    (h : ∀ e ∈ book.data, e.1 ≠ name) :
    book.find name = .notFound ∧
      ((book.add_record r).2).find r.name = .found r := by
  constructor
  · simp [AddressBook.find, lookupEntry_absent name book.data h]
  · simp [AddressBook.find, AddressBook.add_record, lookupEntry_storeEntry_self]

/-- Witness for C6 at a concrete book: "Bob" is absent from a book holding
only "Alice", and `find` after `add_record` returns the inserted record. -/
theorem find_sentinel_and_add_record_witness :
    (AddressBook.mk [("Alice", ⟨"Alice", [], none⟩)]).find "Bob" = .notFound ∧
      (((AddressBook.mk [("Alice", ⟨"Alice", [], none⟩)]).add_record
          ⟨"Bob", ["0123456789"], none⟩).2).find "Bob" =
        .found ⟨"Bob", ["0123456789"], none⟩ :=
  find_sentinel_and_add_record (AddressBook.mk [("Alice", ⟨"Alice", [], none⟩)])
    "Bob" ⟨"Bob", ["0123456789"], none⟩ (by decide)

/-- C9: `remove_phone` and `edit_phone` touch at most the first phone equal
to the given value: the name and birthday are unchanged in every case; with
no match the record is returned unchanged with a not-found message; with a
match exactly the first occurrence is removed (resp. overwritten) and every
other phone, including later duplicates, is kept in order. -/
theorem phone_mutation_frame (r : Record) (p old new : String) :
    ((r.remove_phone p).2.name = r.name ∧
      (r.remove_phone p).2.birthday = r.birthday ∧
      (r.edit_phone old new).2.name = r.name ∧
      (r.edit_phone old new).2.birthday = r.birthday) ∧
    (p ∉ r.phones → r.remove_phone p = ("Phone " ++ p ++ " not found.", r)) ∧
    (∀ pre post, r.phones = pre ++ p :: post → p ∉ pre →
      r.remove_phone p = ("Phone " ++ p ++ " removed.",
        { r with phones := pre ++ post })) ∧
    (old ∉ r.phones → r.edit_phone old new = ("Phone " ++ old ++ " not found.", r)) ∧
    (∀ pre post, r.phones = pre ++ old :: post → old ∉ pre →
      r.edit_phone old new = ("Phone " ++ old ++ " changed to " ++ new ++ ".",
        { r with phones := pre ++ new :: post })) := by
  refine ⟨⟨?_, ?_, ?_, ?_⟩, ?_, ?_, ?_, ?_⟩
  · unfold Record.remove_phone; cases removeFirst p r.phones <;> rfl
  · unfold Record.remove_phone; cases removeFirst p r.phones <;> rfl
  · unfold Record.edit_phone; cases replaceFirst old new r.phones <;> rfl
  · unfold Record.edit_phone; cases replaceFirst old new r.phones <;> rfl
  · intro h
    simp [Record.remove_phone, removeFirst_of_not_mem p r.phones h]
  · intro pre post hsplit hpre
    simp [Record.remove_phone, hsplit, removeFirst_split p pre post hpre]
  · intro h
    simp [Record.edit_phone, replaceFirst_of_not_mem old new r.phones h]
  · intro pre post hsplit hpre
    simp [Record.edit_phone, hsplit, replaceFirst_split old new pre post hpre]

/-- Witness for C9 at a concrete record with a duplicate phone: removing and
editing `"1111111111"` touch only the first occurrence and keep the name,
the birthday and the trailing duplicate. -/
theorem phone_mutation_frame_witness :
    (Record.mk "Bob" ["1111111111", "2222222222", "1111111111"]
        (some ⟨1990, 3, 15⟩)).remove_phone "1111111111" =
      ("Phone 1111111111 removed.",
        ⟨"Bob", ["2222222222", "1111111111"], some ⟨1990, 3, 15⟩⟩) ∧
    (Record.mk "Bob" ["1111111111", "2222222222", "1111111111"]
        (some ⟨1990, 3, 15⟩)).edit_phone "1111111111" "3333333333" =
      ("Phone 1111111111 changed to 3333333333.",
        ⟨"Bob", ["3333333333", "2222222222", "1111111111"], some ⟨1990, 3, 15⟩⟩) := by
  have h := phone_mutation_frame
    (Record.mk "Bob" ["1111111111", "2222222222", "1111111111"] (some ⟨1990, 3, 15⟩))
    "1111111111" "1111111111" "3333333333"
  exact ⟨h.2.2.1 [] ["2222222222", "1111111111"] rfl (by decide),
    h.2.2.2.2 [] ["2222222222", "1111111111"] rfl (by decide)⟩

/-- C7: on a book without "Alice", adding Alice with a first phone answers
"Contact added.", adding a second phone answers "Contact updated.", and the
stored record then holds exactly the two phones in insertion order. -/
theorem add_contact_scenario (book : AddressBook) (h : book.find "Alice" = .notFound) :
    (add_contact ["Alice", "0123456789"] book).1 = "Contact added." ∧
    (add_contact ["Alice", "9876543210"]
        (add_contact ["Alice", "0123456789"] book).2).1 = "Contact updated." ∧
    (add_contact ["Alice", "9876543210"]
        (add_contact ["Alice", "0123456789"] book).2).2.find "Alice" =
      .found ⟨"Alice", ["0123456789", "9876543210"], none⟩ := by
  have hp1 : Phone "0123456789" = .ok "0123456789" := rfl
  have hp2 : Phone "9876543210" = .ok "9876543210" := rfl
  have hb1 : add_contact ["Alice", "0123456789"] book =
      ("Contact added.",
        ⟨storeEntry "Alice" ⟨"Alice", ["0123456789"], none⟩
          (storeEntry "Alice" (Record.new "Alice") book.data)⟩) := by
    simp [add_contact, h, Record.new, Record.add_phone, hp1, Except.map,
      AddressBook.add_record]
  have hf1 : (AddressBook.mk (storeEntry "Alice" ⟨"Alice", ["0123456789"], none⟩
      (storeEntry "Alice" (Record.new "Alice") book.data))).find "Alice" =
      .found ⟨"Alice", ["0123456789"], none⟩ := by
    simp [AddressBook.find, lookupEntry_storeEntry_self]
  refine ⟨by rw [hb1], ?_, ?_⟩ <;> rw [hb1] <;>
    simp [add_contact, hf1, Record.add_phone, hp2, Except.map, AddressBook.find,
      lookupEntry_storeEntry_self]

/-- Witness for C7 starting from the empty book. -/
theorem add_contact_scenario_witness :
    (add_contact ["Alice", "0123456789"] ⟨[]⟩).1 = "Contact added." ∧
    (add_contact ["Alice", "9876543210"]
        (add_contact ["Alice", "0123456789"] ⟨[]⟩).2).1 = "Contact updated." ∧
    (add_contact ["Alice", "9876543210"]
        (add_contact ["Alice", "0123456789"] ⟨[]⟩).2).2.find "Alice" =
      .found ⟨"Alice", ["0123456789", "9876543210"], none⟩ :=
  add_contact_scenario ⟨[]⟩ (by decide)

/-- C8 (amended): for a name not in the book and a NON-EMPTY phone string
failing validation, `add_contact` answers with the validation error text,
yet the record has already been inserted with an empty phone list — the
insertion performed before validation is not rolled back. -/
theorem add_contact_not_atomic (book : AddressBook) (name phone : String)
    (hn : book.find name = .notFound) (hne : ¬ phone = "")
    (hv : Phone phone = .error "Phone number must contain exactly 10 digits.") :
    (add_contact [name, phone] book).1 = "Phone number must contain exactly 10 digits." ∧
    (add_contact [name, phone] book).2.find name = .found (Record.new name) ∧
    (Record.new name).phones = [] := by
  have h1 : add_contact [name, phone] book =
      ("Phone number must contain exactly 10 digits.",
        ⟨storeEntry name (Record.new name) book.data⟩) := by
    simp [add_contact, hn, hne, Record.new, Record.add_phone, hv, Except.map,
      AddressBook.add_record]
  refine ⟨by rw [h1], ?_, rfl⟩
  rw [h1]
  simp [AddressBook.find, lookupEntry_storeEntry_self]

/-- Witness for C8: empty book, phone `"123"`. -/
theorem add_contact_not_atomic_witness :
    (add_contact ["Alice", "123"] ⟨[]⟩).1 = "Phone number must contain exactly 10 digits." ∧
    (add_contact ["Alice", "123"] ⟨[]⟩).2.find "Alice" = .found (Record.new "Alice") ∧
    (Record.new "Alice").phones = [] :=
  add_contact_not_atomic ⟨[]⟩ "Alice" "123" (by decide) (by decide) rfl

/-- C8 counterexample to the claim as stated: the empty string fails phone
validation, yet `add_contact` with it answers "Contact added." (the phone
branch is skipped by truthiness), not the validation error text. -/
theorem add_contact_empty_phone_counterexample :
    Phone "" = .error "Phone number must contain exactly 10 digits." ∧
    (add_contact ["Alice", ""] ⟨[]⟩).1 = "Contact added." ∧
    (add_contact ["Alice", ""] ⟨[]⟩).2.find "Alice" = .found (Record.new "Alice") :=
  ⟨rfl, rfl, rfl⟩

/-- C10: when the record already has a birthday, calling the `add_birthday`
entry point with a string failing birthday validation returns the error
message and leaves the book — hence the stored birthday — unchanged. -/
theorem add_birthday_atomic (book : AddressBook) (name s e : String) (r : Record)
    (d : Date) (hf : book.find name = .found r) (hb : r.birthday = some d)
    (he : Birthday s = .error e) :
    add_birthday [name, s] book = (e, book) ∧
    (add_birthday [name, s] book).2.find name = .found r ∧
    r.birthday = some d := by
  have h1 : add_birthday [name, s] book = (e, book) := by
    simp [add_birthday, hf, Record.add_birthday, he, Except.map]
  exact ⟨h1, by rw [h1]; exact hf, hb⟩

/-- Witness for C10: Alice already has a birthday, `"31.04.2000"` is not a
real calendar date, and the book is left as it was. -/
theorem add_birthday_atomic_witness :
    add_birthday ["Alice", "31.04.2000"]
        ⟨[("Alice", ⟨"Alice", [], some ⟨1990, 3, 15⟩⟩)]⟩ =
      ("Invalid date format. Use DD.MM.YYYY",
        ⟨[("Alice", ⟨"Alice", [], some ⟨1990, 3, 15⟩⟩)]⟩) :=
  (add_birthday_atomic ⟨[("Alice", ⟨"Alice", [], some ⟨1990, 3, 15⟩⟩)]⟩
    "Alice" "31.04.2000" "Invalid date format. Use DD.MM.YYYY"
    ⟨"Alice", [], some ⟨1990, 3, 15⟩⟩ ⟨1990, 3, 15⟩
    (by decide) rfl rfl).1

/-- ASCII digits are Unicode decimal digits. -/
theorem isPyDigit_of_isAsciiDigit (c : Char) (h : isAsciiDigit c = true) :
    isPyDigit c = true := by
  simp [isAsciiDigit] at h
  simp [isPyDigit, ndRanges]
  omega

/-- C3 (amended): the `Phone` constructor succeeds exactly on strings of ten
Unicode decimal digits (category Nd — this includes `0`-`9` but also e.g.
Arabic-Indic digits), storing the string unchanged; anything else fails with
"Phone number must contain exactly 10 digits.".  In particular all ten-char
ASCII-digit strings are accepted unchanged. -/
theorem phone_validation (s : String) :
    (s.data.length = 10 ∧ s.data.all isPyDigit = true → Phone s = .ok s) ∧
    (¬(s.data.length = 10 ∧ s.data.all isPyDigit = true) →
      Phone s = .error "Phone number must contain exactly 10 digits.") ∧
    (s.data.length = 10 → s.data.all isAsciiDigit = true → Phone s = .ok s) := by
  refine ⟨fun h => ?_, fun h => ?_, fun hl ha => ?_⟩
  · unfold Phone; rw [if_pos h]
  · unfold Phone; rw [if_neg h]
  · have hp : s.data.all isPyDigit = true := by
      rw [List.all_eq_true] at ha ⊢
      exact fun c hc => isPyDigit_of_isAsciiDigit c (ha c hc)
    unfold Phone; rw [if_pos ⟨hl, hp⟩]

/-- Witness for C3 at an ASCII ten-digit string. -/
theorem phone_validation_witness : Phone "0123456789" = .ok "0123456789" :=
  (phone_validation "0123456789").2.2 (by decide) (by decide)

/-- C3 counterexample to the claim as stated: ten Arabic-Indic digit
characters (U+0660, category Nd) are accepted by the ten-digit fullmatch
although none of them is one of the characters `0`-`9`. -/
theorem phone_validation_counterexample :
    Phone (String.mk (List.replicate 10 (Char.ofNat 1632))) =
      .ok (String.mk (List.replicate 10 (Char.ofNat 1632))) ∧
    (String.mk (List.replicate 10 (Char.ofNat 1632))).data.all isAsciiDigit = false :=
  ⟨rfl, rfl⟩

/-! ## Calendar lemmas for the birthday-distance bound -/

set_option maxHeartbeats 1000000 in
theorem daysBeforeYear_succ (y : Nat) (h : 1 ≤ y) :
    daysBeforeYear (y + 1) = daysBeforeYear y + daysInYear y := by
  unfold daysBeforeYear daysInYear isLeapYear
  split <;> rename_i hL <;>
    simp only [Bool.and_eq_true, Bool.or_eq_true, beq_iff_eq, bne_iff_ne, ne_eq] at hL <;>
    omega

theorem daysInYear_bounds (y : Nat) : 365 ≤ daysInYear y ∧ daysInYear y ≤ 366 := by
  unfold daysInYear; split <;> omega

theorem daysBeforeMonthTable_mono :
    ∀ a b : Fin 13, a.val ≤ b.val → daysBeforeMonthTable a.val ≤ daysBeforeMonthTable b.val := by
  decide

theorem daysBeforeMonth_mono (y a b : Nat) (hab : a ≤ b) (hb : b ≤ 12) :
    daysBeforeMonth y a ≤ daysBeforeMonth y b := by
  have ht := daysBeforeMonthTable_mono ⟨a, by omega⟩ ⟨b, by omega⟩ hab
  simp only at ht
  unfold daysBeforeMonth
  by_cases h2a : 2 < a <;> by_cases h2b : 2 < b <;>
    cases hL : isLeapYear y <;> simp [h2a, h2b, hL] <;> omega

theorem daysBeforeMonth_succ (y m : Nat) (h1 : 1 ≤ m) (h2 : m ≤ 11) :
    daysBeforeMonth y (m + 1) = daysBeforeMonth y m + daysInMonth y m := by
  interval_cases m <;> cases hL : isLeapYear y <;>
    simp [daysBeforeMonth, daysBeforeMonthTable, daysInMonth, hL]

theorem dayOfYear_le (y m d : Nat) (h1 : 1 ≤ m) (h2 : m ≤ 12)
    (h3 : d ≤ daysInMonth y m) : daysBeforeMonth y m + d ≤ daysInYear y := by
  interval_cases m <;> cases hL : isLeapYear y <;>
    simp [daysBeforeMonth, daysBeforeMonthTable, daysInMonth, daysInYear, hL] at h3 ⊢ <;>
    omega

theorem dayOfYear_lt (y m d m' d' : Nat) (hm1 : 1 ≤ m) (hm : m ≤ 12)
    (hd : d ≤ daysInMonth y m) (hm' : m' ≤ 12) (hd' : 1 ≤ d')
    (hlex : m < m' ∨ (m = m' ∧ d < d')) :
    daysBeforeMonth y m + d < daysBeforeMonth y m' + d' := by
  rcases hlex with hmm | ⟨rfl, hdd⟩
  · have hs := daysBeforeMonth_succ y m hm1 (by omega)
    have hmono := daysBeforeMonth_mono y (m + 1) m' hmm hm'
    omega
  · omega

theorem daysBeforeMonth_shift (y y' m : Nat) :
    daysBeforeMonth y' m ≤ daysBeforeMonth y m + 1 := by
  unfold daysBeforeMonth; split <;> split <;> omega

theorem daysInMonth_any_year (y y' m d : Nat) (h : d ≤ daysInMonth y' m)
    (hnf : ¬(m = 2 ∧ d = 29)) : d ≤ daysInMonth y m := by
  by_cases hm : m = 2
  · subst hm
    have hd29 : d ≠ 29 := fun hd => hnf ⟨rfl, hd⟩
    have h2 : daysInMonth y' 2 = if isLeapYear y' then 29 else 28 := rfl
    have h3 : daysInMonth y 2 = if isLeapYear y then 29 else 28 := rfl
    rw [h2] at h
    rw [h3]
    split at h <;> split <;> omega
  · unfold daysInMonth at h ⊢
    rw [if_neg hm] at h ⊢
    exact h

theorem replaceYear_ok (d : Date) (y : Nat) (res : Date)
    (h : replaceYear d y = .ok res) :
    res = ⟨y, d.month, d.day⟩ ∧ 1 ≤ y ∧ y ≤ 9999 ∧ 1 ≤ d.month ∧ d.month ≤ 12 ∧
      1 ≤ d.day ∧ d.day ≤ daysInMonth y d.month := by
  unfold replaceYear at h
  split at h
  · exact absurd h (by simp)
  next h1 =>
    split at h
    · exact absurd h (by simp)
    next h2 =>
      split at h
      · exact absurd h (by simp)
      next h3 =>
        rw [not_not] at h1 h2 h3
        simp only [Except.ok.injEq] at h
        exact ⟨h.symm, h1.1, h1.2, h2.1, h2.2, h3.1, h3.2⟩

theorem replaceYear_ok_of (d : Date) (y : Nat) (h1 : 1 ≤ y ∧ y ≤ 9999)
    (h2 : 1 ≤ d.month ∧ d.month ≤ 12) (h3 : 1 ≤ d.day ∧ d.day ≤ daysInMonth y d.month) :
    replaceYear d y = .ok ⟨y, d.month, d.day⟩ := by
  unfold replaceYear
  rw [if_neg (not_not_intro h1), if_neg (not_not_intro h2), if_neg (not_not_intro h3)]

theorem dateLt_same_year (y m d m' d' : Nat) :
    dateLt ⟨y, m, d⟩ ⟨y, m', d'⟩ = true ↔ (m < m' ∨ (m = m' ∧ d < d')) := by
  simp [dateLt]

/-- C4 (amended): without a birthday, `days_to_birthday` returns `None`.
With a birthday set, whenever the call returns (no exception) the value is
an integer in `[0, 366]`; and for every birthday other than February 29
(and today's year below 9999) the call does return.  For a February-29
birthday whose target year is not a leap year, `date.replace` raises
`ValueError` instead of returning (see the counterexample). -/
theorem days_to_birthday_spec (r : Record) (today : Date) (ht : ValidDate today)
    (hb : ∀ b, r.birthday = some b → ValidDate b) :
    (r.birthday = none → r.days_to_birthday today = .ok none) ∧
    (∀ k, r.days_to_birthday today = .ok (some k) → 0 ≤ k ∧ k ≤ 366) ∧
    (∀ b, r.birthday = some b → ¬(b.month = 2 ∧ b.day = 29) → today.year + 1 ≤ 9999 →
      ∃ k, r.days_to_birthday today = .ok (some k)) := by
  obtain ⟨hty1, hty2, htm1, htm2, htd1, htd2⟩ := ht
  refine ⟨fun h => by simp [Record.days_to_birthday, h], fun k hk => ?_, fun b hbs hnf hy => ?_⟩
  · cases hbs : r.birthday with
    | none => simp [Record.days_to_birthday, hbs] at hk
    | some b =>
      simp only [Record.days_to_birthday, hbs] at hk
      obtain ⟨hby1, hby2, hbm1, hbm2, hbd1, hbd2⟩ := hb b hbs
      cases hr1 : replaceYear b today.year with
      | error e => simp [hr1] at hk
      | ok nb =>
        simp only [hr1] at hk
        obtain ⟨hnb, _, _, hm1, hm12, hd1, hd2⟩ := replaceYear_ok b today.year nb hr1
        subst hnb
        have hdy := daysInYear_bounds today.year
        have hle_t : daysBeforeMonth today.year today.month + today.day ≤
            daysInYear today.year := dayOfYear_le today.year today.month today.day
          htm1 htm2 htd2
        split at hk
        next hlt =>
          cases hr2 : replaceYear b (today.year + 1) with
          | error e => simp [hr2] at hk
          | ok nb2 =>
            simp only [hr2] at hk
            obtain ⟨hnb2, _, _, _, _, _, hd2'⟩ :=
              replaceYear_ok b (today.year + 1) nb2 hr2
            subst hnb2
            simp only [Except.ok.injEq, Option.some.injEq] at hk
            have hlex := (dateLt_same_year today.year b.month b.day
              today.month today.day).1 hlt
            have hdoylt : daysBeforeMonth today.year b.month + b.day <
                daysBeforeMonth today.year today.month + today.day :=
              dayOfYear_lt today.year b.month b.day today.month today.day
                hbm1 hbm2 hd2 htm2 htd1 hlex
            have hshift : daysBeforeMonth (today.year + 1) b.month ≤
                daysBeforeMonth today.year b.month + 1 :=
              daysBeforeMonth_shift today.year (today.year + 1) b.month
            have hsucc := daysBeforeYear_succ today.year hty1
            simp only [toOrdinal] at hk
            omega
        next hlt =>
          simp only [Except.ok.injEq, Option.some.injEq] at hk
          have hlex : ¬(b.month < today.month ∨ (b.month = today.month ∧ b.day < today.day)) :=
            fun hc => hlt ((dateLt_same_year today.year b.month b.day
              today.month today.day).2 hc)
          have hge : daysBeforeMonth today.year today.month + today.day ≤
              daysBeforeMonth today.year b.month + b.day := by
            rcases Nat.lt_trichotomy today.month b.month with hmm | hmm | hmm
            · exact Nat.le_of_lt (dayOfYear_lt today.year today.month today.day
                b.month b.day htm1 htm2 htd2 hbm2 hbd1 (Or.inl hmm))
            · rw [hmm]
              have : ¬ b.day < today.day := fun hdd => hlex (Or.inr ⟨hmm.symm, hdd⟩)
              omega
            · exact absurd (Or.inl hmm) hlex
          have hle_b : daysBeforeMonth today.year b.month + b.day ≤
              daysInYear today.year :=
            dayOfYear_le today.year b.month b.day hbm1 hbm2 hd2
          simp only [toOrdinal] at hk
          omega
  · simp only [Record.days_to_birthday, hbs]
    obtain ⟨hby1, hby2, hbm1, hbm2, hbd1, hbd2⟩ := hb b hbs
    have hdm : b.day ≤ daysInMonth today.year b.month :=
      daysInMonth_any_year today.year b.year b.month b.day hbd2 hnf
    simp only [replaceYear_ok_of b today.year ⟨hty1, hty2⟩ ⟨hbm1, hbm2⟩ ⟨hbd1, hdm⟩]
    split
    · have hdm2 : b.day ≤ daysInMonth (today.year + 1) b.month :=
        daysInMonth_any_year (today.year + 1) b.year b.month b.day hbd2 hnf
      simp only [replaceYear_ok_of b (today.year + 1) ⟨by omega, hy⟩
        ⟨hbm1, hbm2⟩ ⟨hbd1, hdm2⟩]
      exact ⟨_, rfl⟩
    · exact ⟨_, rfl⟩

/-- Witness for C4: Alice's birthday 15.03.1990 seen from 10.03.2024 is in
five days, inside `[0, 366]`. -/
theorem days_to_birthday_spec_witness :
    (Record.mk "Alice" [] (some ⟨1990, 3, 15⟩)).days_to_birthday ⟨2024, 3, 10⟩ =
      .ok (some 5) ∧ (0 : Int) ≤ 5 ∧ (5 : Int) ≤ 366 :=
  ⟨rfl, (days_to_birthday_spec (Record.mk "Alice" [] (some ⟨1990, 3, 15⟩))
    ⟨2024, 3, 10⟩ (by decide) (fun b hb => by cases hb; decide)).2.1 5 rfl⟩

/-- C4 counterexample to the claim as stated ("never fails"): a February-29
birthday with a non-leap current year makes the year replacement raise
`ValueError: day is out of range for month`, so `days_to_birthday` raises
instead of returning an integer. -/
theorem days_to_birthday_feb29_counterexample :
    (Record.mk "Bob" [] (some ⟨2020, 2, 29⟩)).days_to_birthday ⟨2021, 1, 15⟩ =
      .error "day is out of range for month" := rfl

/-- Monadic fold of `get_upcoming_birthdays` equals the declarative filter
when no record's `days_to_birthday` raises. -/
theorem upcomingAux_ok (today : Date) (l : List (String × Record))
    (h : ∀ p ∈ l, ∀ e, p.2.days_to_birthday today ≠ .error e) :
    upcomingAux today l = .ok (l.filterMap fun p =>
      match p.2.birthday, p.2.days_to_birthday today with
      | some b, .ok (some k) =>
        if 0 ≤ k ∧ k ≤ 7 then some ⟨p.2.name, b, formatDate (addDays today k.toNat)⟩
        else none
      | _, _ => none) := by
  induction l with
  | nil => rfl
  | cons p rest ih =>
    obtain ⟨key, r⟩ := p
    have hrest := ih fun q hq e => h q (by simp [hq]) e
    have hr := h (key, r) (by simp)
    cases hbs : r.birthday with
    | none => simp [upcomingAux, hbs, hrest]
    | some b =>
      cases hd : r.days_to_birthday today with
      | error e => exact absurd hd (hr e)
      | ok du =>
        cases du with
        | none => simp [upcomingAux, hbs, hd, hrest]
        | some k =>
          by_cases hk : 0 ≤ k ∧ k ≤ 7
          · simp [upcomingAux, hbs, hd, hk, hrest, Except.map]
          · simp [upcomingAux, hbs, hd, hk, hrest]

/-- C5 (amended): provided no stored birthday makes `days_to_birthday`
raise (the February-29/non-leap case), `get_upcoming_birthdays` returns
exactly the records whose distance is in `[0, 7]`, in book insertion
order, each carrying the record's name and the congratulation date
`today + distance` formatted `DD.MM.YYYY`. -/
theorem get_upcoming_birthdays_spec (book : AddressBook) (today : Date)
    (h : ∀ p ∈ book.data, ∀ e, p.2.days_to_birthday today ≠ .error e) :
    book.get_upcoming_birthdays today = .ok (upcomingSpec book today) :=
  upcomingAux_ok today book.data h

/-- Witness for C5: Bob's birthday is four days after today, so the query
lists him with congratulation date `19.01.2021`. -/
theorem get_upcoming_birthdays_spec_witness :
    (AddressBook.mk [("Bob", ⟨"Bob", [], some ⟨1990, 1, 19⟩⟩)]).get_upcoming_birthdays
        ⟨2021, 1, 15⟩ =
      .ok (upcomingSpec (AddressBook.mk [("Bob", ⟨"Bob", [], some ⟨1990, 1, 19⟩⟩)])
        ⟨2021, 1, 15⟩) ∧
    upcomingSpec (AddressBook.mk [("Bob", ⟨"Bob", [], some ⟨1990, 1, 19⟩⟩)])
        ⟨2021, 1, 15⟩ = [⟨"Bob", ⟨1990, 1, 19⟩, "19.01.2021"⟩] :=
  ⟨get_upcoming_birthdays_spec _ _ (by
    intro p hp e
    simp only [List.mem_singleton] at hp
    subst hp
    show (Record.mk "Bob" [] (some ⟨1990, 1, 19⟩)).days_to_birthday ⟨2021, 1, 15⟩ ≠
      Except.error e
    rw [show (Record.mk "Bob" [] (some ⟨1990, 1, 19⟩)).days_to_birthday ⟨2021, 1, 15⟩ =
      .ok (some 4) from rfl]
    simp), rfl⟩

/-- C5 counterexample to the claim as stated: with a February-29 birthday
on the books and a non-leap today, `get_upcoming_birthdays` propagates the
`ValueError` instead of returning the filtered list. -/
theorem get_upcoming_birthdays_counterexample :
    (AddressBook.mk [("Bob", ⟨"Bob", [], some ⟨2020, 2, 29⟩⟩)]).get_upcoming_birthdays
      ⟨2021, 1, 15⟩ = .error "day is out of range for month" := rfl

/-! ## Digit-rendering lemmas for the birthday round-trip -/

